import Mathlib

/-!
Shallow embedding of `src/controllers/groupCallController.js` from the
backend-vaani repository: the group-call lifecycle manager (initiate /
getPending / decline / join / leave), the end-of-call transition, the
per-call abandonment-timer registry, and the optimistic retry loop inside
`leave`.  Timestamps are integers (milliseconds, as JavaScript `Date`
values); user, room and call identifiers are naturals; the MongoDB
collection is a list of documents.
-/

namespace GroupCallModel

/-- Participant status enum from the GroupCall schema:
`invited | joined | declined | left | missed`. -/
inductive PStatus where
  | invited
  | joined
  | declined
  | left
  | missed
deriving DecidableEq

/-- Session status enum: `ringing | active | ended`. -/
inductive CallStatus where
  | ringing
  | active
  | ended
deriving DecidableEq

/-- Call type enum: `audio | video`. -/
inductive CallType where
  | audio
  | video
deriving DecidableEq

/-- One embedded participant record of a GroupCall document. -/
structure Participant where
  userId : Nat
  status : PStatus
  joinedAt : Option Int := none
  leftAt : Option Int := none
  notificationSent : Bool := false
  notificationDelivered : Bool := false
deriving DecidableEq

/-- A GroupCall document as handled by the controller. -/
structure GroupCall where
  id : Nat
  roomId : Nat
  callRoomId : String
  initiator : Nat
  participants : List Participant
  callType : CallType
  status : CallStatus
  activeParticipants : List Nat
  startedAt : Int
  endedAt : Option Int := none
  duration : Option Int := none
  createdAt : Int
deriving DecidableEq

/-- A Room document: the fields the controller reads. -/
structure Room where
  id : Nat
  name : String
  participants : List Nat
deriving DecidableEq

/-- HTTP-level outcome of a controller method: 404, 403, 500, or the
200/201 payload. -/
inductive Resp (α : Type) where
  | notFound
  | forbidden
  | internalError
  | success (val : α)
deriving DecidableEq

/-- Events emitted over socket.io by the controller (names as in the
source). -/
inductive EmittedEvent where
  | group_incoming_call (callId : Nat)
  | participantJoined (callId : Nat) (userId : Nat) (active : List Nat)
  | participantLeft (callId : Nat) (userId : Nat) (active : List Nat) (callEnded : Bool)
  | group_call_ended (callId : Nat) (reason : String)
deriving DecidableEq

/-- The in-process timer registry `_noParticipantTimers`: call id paired
with the absolute time at which the pending timeout fires. -/
abbrev Timers : Type := List (Nat × Int)

/-- Model of `clearTimeout` plus `Map.delete` for one call id. -/
def clearEntry (callId : Nat) (ts : Timers) : Timers :=
  ts.filter (fun e => e.1 ≠ callId)

/-- Lookup on the timer registry: the deadline of the pending timer
for a call, if any. -/
def lookupTimer (callId : Nat) (ts : Timers) : Option Int :=
  (ts.find? (fun e => decide (e.1 = callId))).map (fun e => e.2)

/-- Mutating the single object returned by `Array.prototype.find`:
update the first element satisfying the predicate. -/
def updateFirst (p : α → Bool) (f : α → α) : List α → List α
  | [] => []
  | a :: as => if p a then f a :: as else a :: updateFirst p f as

/-- Model of `document.save()` on an existing document: replace the stored record
with the same `_id`. -/
def replaceCall (g : GroupCall) (db : List GroupCall) : List GroupCall :=
  db.map (fun x => if x.id = g.id then g else x)

/-! ### getPending (lines 18–43)

The Mongo filter
`{'participants.userId': u, 'participants.status': 'invited', status: 'ringing'}`
uses two independent dotted-path conditions on the `participants` array:
each existentially quantifies over the array elements separately (no
`$elemMatch`), so the `userId` match and the `invited` match may be
witnessed by different participants. -/

/-- The `GroupCall.find` filter of `getPending`. -/
def getPendingFilter (uid : Nat) (g : GroupCall) : Bool :=
  g.participants.any (fun p => decide (p.userId = uid)) &&
  g.participants.any (fun p => decide (p.status = PStatus.invited)) &&
  decide (g.status = CallStatus.ringing)

/-- Handler `getPending`: filter the collection, then `.sort({createdAt: -1})`
(newest first). -/
def getPending (uid : Nat) (db : List GroupCall) : List GroupCall :=
  (db.filter (getPendingFilter uid)).mergeSort
    (fun a b => decide (b.createdAt ≤ a.createdAt))

/-! ### End-of-call transition (leave lines 477–491, timer handler
lines 514–523) -/

/-- The shared end-of-call body: `status = 'ended'`, `endedAt = now`,
`duration = Math.floor((endedAt - startedAt)/1000)`, `invited` becomes
`missed`, `joined` without `leftAt` receives `leftAt = endedAt`. -/
def endTransition (now : Int) (g : GroupCall) : GroupCall :=
  { g with
    status := CallStatus.ended
    endedAt := some now
    duration := some (Int.fdiv (now - g.startedAt) 1000)
    participants := g.participants.map (fun p =>
      if p.status = PStatus.invited then { p with status := PStatus.missed }
      else if p.status = PStatus.joined ∧ p.leftAt = none then { p with leftAt := some now }
      else p) }

/-- Modelled from the spec: `GroupCall.endCall` is defined in
`lib/models/GroupCall.js`, which is not among the provided sources (only
its caller at `groupCallController.js:97` is).  Per §4.3 of the spec the
force-end transition sets `status = ended`, `endedAt = now`, computes
`duration`, finalizes participant statuses as in `leave` step 3, and
cancels any outstanding abandonment timer for the session. -/
def endCall (now : Int) (g : GroupCall) (ts : Timers) : GroupCall × Timers :=
  (endTransition now g, clearEntry g.id ts)

/-! ### initiate (lines 48–241) -/

/-- Response payload variants of `initiate`. -/
inductive InitResp where
  | badRequest
  | roomNotFound
  | forbidden
  | existingCall (c : GroupCall)
  | created (c : GroupCall)
deriving DecidableEq

/-- Model of `GroupCall.findOne({roomId, status: {$in: ['ringing','active']}})`. -/
def findActiveForRoom (roomId : Nat) (db : List GroupCall) : Option GroupCall :=
  db.find? (fun g =>
    decide (g.roomId = roomId) &&
    (decide (g.status = CallStatus.ringing) || decide (g.status = CallStatus.active)))

/-- Abandonment test of `initiate` (lines 88–91): no active participants,
or ringing for more than 5 minutes. -/
def isAbandoned (now : Int) (g : GroupCall) : Bool :=
  decide (g.activeParticipants.length = 0) ||
  (decide (g.status = CallStatus.ringing) && decide (now - g.startedAt > 5 * 60 * 1000))

/-- One element of the participants array built by `initiate`
(lines 119–125): the initiator is pre-set to `joined`. -/
def mkParticipant (now : Int) (uid : Nat) (pid : Nat) : Participant :=
  { userId := pid
    status := if pid = uid then PStatus.joined else PStatus.invited
    joinedAt := if pid = uid then some now else none
    leftAt := none
    notificationSent := false
    notificationDelivered := false }

/-- The fresh GroupCall document built by `initiate` (lines 116–136):
`callRoomId = "group-call-" ++ uuid`, participants from the room roster,
`status = 'ringing'`, `activeParticipants = [initiator]`. -/
def mkGroupCall (now : Int) (uid : Nat) (roomId : Nat) (ct : CallType)
    (uuid : String) (newId : Nat) (room : Room) : GroupCall :=
  { id := newId
    roomId := roomId
    callRoomId := "group-call-" ++ uuid
    initiator := uid
    participants := room.participants.map (mkParticipant now uid)
    callType := ct
    status := CallStatus.ringing
    activeParticipants := [uid]
    startedAt := now
    endedAt := none
    duration := none
    createdAt := now }

/-- Handler `initiate`: validation, lookup of a live session for the room, the
abandonment check, force-end of an abandoned session, creation of a new
one.  `uuid` and `newId` stand for the fresh identifiers generated during
the request; the returned triple is (response, stored collection, timer
registry). -/
def initiate (now : Int) (uid : Nat) (roomIdReq : Option Nat) (ct : CallType)
    (rooms : List Room) (uuid : String) (newId : Nat)
    (db : List GroupCall) (ts : Timers) : InitResp × List GroupCall × Timers :=
  match roomIdReq with
  | none => (InitResp.badRequest, db, ts)
  | some roomId =>
    match rooms.find? (fun r => decide (r.id = roomId)) with
    | none => (InitResp.roomNotFound, db, ts)
    | some room =>
      if uid ∈ room.participants then
        match findActiveForRoom roomId db with
        | some existing =>
          if isAbandoned now existing then
            let ec := endCall now existing ts
            let newCall := mkGroupCall now uid roomId ct uuid newId room
            (InitResp.created newCall, replaceCall ec.1 db ++ [newCall], ec.2)
          else
            (InitResp.existingCall existing, db, ts)
        | none =>
          let newCall := mkGroupCall now uid roomId ct uuid newId room
          (InitResp.created newCall, db ++ [newCall], ts)
      else (InitResp.forbidden, db, ts)

/-! ### decline (lines 289–327) -/

/-- Handler `decline`: find the session, 403 unless the caller is a participant,
set the found participant's status to `declined`. -/
def decline (uid : Nat) (found : Option GroupCall) : Resp GroupCall :=
  match found with
  | none => Resp.notFound
  | some g =>
    if g.participants.any (fun p => decide (p.userId = uid)) then
      Resp.success { g with
        participants := updateFirst (fun p => decide (p.userId = uid))
          (fun p => { p with status := PStatus.declined }) g.participants }
    else Resp.forbidden

/-! ### join (lines 332–414) -/

/-- Handler `join` (database effect): set the found participant to `joined` with
`joinedAt = now`, add the caller to `activeParticipants` unless present,
and promote `ringing` to `active` once at least two are active. -/
def join (now : Int) (uid : Nat) (found : Option GroupCall) : Resp GroupCall :=
  match found with
  | none => Resp.notFound
  | some g =>
    if g.participants.any (fun p => decide (p.userId = uid)) then
      let ps := updateFirst (fun p => decide (p.userId = uid))
        (fun p => { p with status := PStatus.joined, joinedAt := some now }) g.participants
      let act := if uid ∈ g.activeParticipants then g.activeParticipants
                 else g.activeParticipants ++ [uid]
      let st := if g.status = CallStatus.ringing ∧ act.length ≥ 2 then CallStatus.active
                else g.status
      Resp.success { g with participants := ps, activeParticipants := act, status := st }
    else Resp.forbidden

/-- Timer side of `join` (lines 374–385): clear any pending
no-participant timer for the call. -/
def joinTimers (g : GroupCall) (ts : Timers) : Timers :=
  clearEntry g.id ts

/-! ### leave (lines 419–582) -/

/-- The `findOneAndUpdate` of `leave`: every participant element matching
`userId` gets `status = 'left'`, `leftAt = now`, and `$pull` removes the
user from `activeParticipants`. -/
def removeParticipant (now : Int) (uid : Nat) (g : GroupCall) : GroupCall :=
  { g with
    participants := g.participants.map (fun p =>
      if p.userId = uid then { p with status := PStatus.left, leftAt := some now } else p)
    activeParticipants := g.activeParticipants.filter (fun x => decide (x ≠ uid)) }

/-- Handler `leave` after a successful atomic update: end the call if
`activeParticipants` is now empty; the Boolean is the `callEnded` flag of
the 200 response. -/
def leaveCore (now : Int) (uid : Nat) (g : GroupCall) : GroupCall × Bool :=
  let g1 := removeParticipant now uid g
  let g2 := if g1.activeParticipants.length = 0 then endTransition now g1 else g1
  (g2, decide (g2.status = CallStatus.ended))

/-- Handler `leave` at the response level: 404 when the session does not exist,
otherwise the update plus the `callEnded` report.  No participant
membership check exists on this path. -/
def leave (now : Int) (uid : Nat) (found : Option GroupCall) :
    Resp Bool × Option GroupCall :=
  match found with
  | none => (Resp.notFound, none)
  | some g =>
    let r := leaveCore now uid g
    (Resp.success r.2, some r.1)

/-- Timer side of `leave` (lines 494–555), applied to the state after the
update and possible end: exactly one active participant remaining arms a
fresh 30-second timer (replacing any pending one); otherwise any pending
timer is cleared. -/
def leaveTimers (now : Int) (g : GroupCall) (ts : Timers) : Timers :=
  if g.activeParticipants.length = 1 then
    (g.id, now + 30 * 1000) :: clearEntry g.id ts
  else
    clearEntry g.id ts

/-- The fired abandonment timer (lines 508–542): re-fetch the session;
end it only when it still has at most one active participant and is not
already ended, emitting `group_call_ended` with reason
`no_participants`; the registry entry is removed in every case. -/
def timerFire (now : Int) (callId : Nat) (fresh : Option GroupCall) (ts : Timers) :
    Option GroupCall × List EmittedEvent × Timers :=
  match fresh with
  | none => (none, [], clearEntry callId ts)
  | some f =>
    if f.activeParticipants.length ≤ 1 ∧ f.status ≠ CallStatus.ended then
      (some (endTransition now f),
       [EmittedEvent.group_call_ended f.id "no_participants"],
       clearEntry callId ts)
    else (some f, [], clearEntry callId ts)

/-! ### The retry loop of `leave` (lines 433–474) -/

/-- Outcome of one attempt of the atomic update: success, or a thrown
write conflict. -/
inductive Attempt where
  | ok
  | conflict
deriving DecidableEq

/-- Result of the retry loop: whether the update went through, how many
attempts were made, and the backoff sleeps (milliseconds) performed. -/
structure RetryOutcome where
  success : Bool
  attemptsMade : Nat
  sleeps : List Nat
deriving DecidableEq

/-- The constant `maxRetries = 3`. -/
def maxRetries : Nat := 3

/-- The `while (retryCount < maxRetries)` loop: attempt the update; on
success break; on a conflict increment `retryCount`, rethrow once
`retryCount >= maxRetries`, else sleep `100 * retryCount` and retry.
`outcome i` is the result of the attempt made with `retryCount = i`. -/
def retryGo (outcome : Nat → Attempt) (retryCount : Nat) (sleeps : List Nat) :
    RetryOutcome :=
  if _h : retryCount < maxRetries then
    match outcome retryCount with
    | Attempt.ok => ⟨true, retryCount + 1, sleeps⟩
    | Attempt.conflict =>
      if retryCount + 1 ≥ maxRetries then ⟨false, retryCount + 1, sleeps⟩
      else retryGo outcome (retryCount + 1) (sleeps ++ [100 * (retryCount + 1)])
  else ⟨true, retryCount, sleeps⟩
termination_by maxRetries - retryCount
decreasing_by
  simp_wf
  omega

/-- The retry loop as entered by `leave`: `retryCount` starts at 0 with
no sleeps performed. -/
def leaveRetry (outcome : Nat → Attempt) : RetryOutcome :=
  retryGo outcome 0 []

/-- Project the 200-payload out of a controller response. -/
def respCall : Resp GroupCall → Option GroupCall
  | Resp.success g => some g
  | _ => none

/-! ## Helper lemmas -/

theorem updateFirst_mem {p : α → Bool} {f : α → α} :
    ∀ {l : List α} {q : α}, q ∈ updateFirst p f l →
      q ∈ l ∨ ∃ a, a ∈ l ∧ p a = true ∧ q = f a := by
  intro l
  induction l with
  | nil => intro q h; simp [updateFirst] at h
  | cons a as ih =>
    intro q h
    by_cases hp : p a
    · rw [updateFirst, if_pos hp] at h
      rcases List.mem_cons.mp h with h1 | h1
      · exact Or.inr ⟨a, List.mem_cons_self a as, hp, h1⟩
      · exact Or.inl (List.mem_cons_of_mem a h1)
    · rw [updateFirst, if_neg hp] at h
      rcases List.mem_cons.mp h with h1 | h1
      · exact Or.inl (h1 ▸ List.mem_cons_self a as)
      · rcases ih h1 with h' | ⟨b, hb, hpb, hq⟩
        · exact Or.inl (List.mem_cons_of_mem a h')
        · exact Or.inr ⟨b, List.mem_cons_of_mem a hb, hpb, hq⟩

theorem lookupTimer_cons (j : Nat) (e : Nat × Int) (ts : Timers) :
    lookupTimer j (e :: ts) = if e.1 = j then some e.2 else lookupTimer j ts := by
  by_cases hej : e.1 = j <;> simp [lookupTimer, List.find?_cons, hej]

theorem clearEntry_cons (i : Nat) (e : Nat × Int) (ts : Timers) :
    clearEntry i (e :: ts) = if e.1 = i then clearEntry i ts else e :: clearEntry i ts := by
  by_cases he : e.1 = i <;> simp [clearEntry, List.filter_cons, he]

theorem lookupTimer_cons_self (i : Nat) (v : Int) (ts : Timers) :
    lookupTimer i ((i, v) :: ts) = some v := by
  simp [lookupTimer_cons]

theorem lookupTimer_clearEntry_self (i : Nat) (ts : Timers) :
    lookupTimer i (clearEntry i ts) = none := by
  induction ts with
  | nil => rfl
  | cons e ts ih =>
    rw [clearEntry_cons]
    by_cases he : e.1 = i
    · rw [if_pos he]; exact ih
    · rw [if_neg he, lookupTimer_cons, if_neg he]; exact ih

theorem lookupTimer_clearEntry_other {i j : Nat} (h : j ≠ i) (ts : Timers) :
    lookupTimer j (clearEntry i ts) = lookupTimer j ts := by
  induction ts with
  | nil => rfl
  | cons e ts ih =>
    rw [clearEntry_cons, lookupTimer_cons]
    by_cases he : e.1 = i
    · have hej : ¬ e.1 = j := by rw [he]; exact fun hc => h hc.symm
      rw [if_pos he, if_neg hej]
      exact ih
    · rw [if_neg he, lookupTimer_cons]
      by_cases hej : e.1 = j
      · rw [if_pos hej, if_pos hej]
      · rw [if_neg hej, if_neg hej]; exact ih

/-- Status of one participant after the end-of-call body. -/
theorem endPointwise_status (now : Int) (p : Participant) :
    ((if p.status = PStatus.invited then { p with status := PStatus.missed }
      else if p.status = PStatus.joined ∧ p.leftAt = none then { p with leftAt := some now }
      else p) : Participant).status =
    (if p.status = PStatus.invited then PStatus.missed else p.status) := by
  by_cases h1 : p.status = PStatus.invited
  · simp [h1]
  · by_cases h2 : p.status = PStatus.joined ∧ p.leftAt = none <;> simp [h1, h2]

/-- Field `leftAt` of one participant after the end-of-call body. -/
theorem endPointwise_leftAt (now : Int) (p : Participant) :
    ((if p.status = PStatus.invited then { p with status := PStatus.missed }
      else if p.status = PStatus.joined ∧ p.leftAt = none then { p with leftAt := some now }
      else p) : Participant).leftAt =
    (if p.status = PStatus.joined ∧ p.leftAt = none then some now else p.leftAt) := by
  by_cases h1 : p.status = PStatus.invited
  · have h2 : ¬(p.status = PStatus.joined ∧ p.leftAt = none) := by
      rw [h1]; rintro ⟨hc, -⟩; cases hc
    simp [h1, h2]
  · by_cases h2 : p.status = PStatus.joined ∧ p.leftAt = none <;> simp [h1, h2]

/-- The end-of-call body maps the participant statuses by
`invited ↦ missed` and fixes every other status. -/
theorem endTransition_statuses (now : Int) (g : GroupCall) :
    (endTransition now g).participants.map (fun p => p.status) =
    g.participants.map (fun p => if p.status = PStatus.invited then PStatus.missed
                                 else p.status) := by
  simp only [endTransition, List.map_map]
  exact List.map_congr_left (fun p _ => endPointwise_status now p)

/-- The end-of-call body gives `leftAt = endedAt` exactly to the `joined`
participants that have none. -/
theorem endTransition_leftAts (now : Int) (g : GroupCall) :
    (endTransition now g).participants.map (fun p => p.leftAt) =
    g.participants.map (fun p => if p.status = PStatus.joined ∧ p.leftAt = none then some now
                                 else p.leftAt) := by
  simp only [endTransition, List.map_map]
  exact List.map_congr_left (fun p _ => endPointwise_leftAt now p)

/-! ## Concrete sessions used in counterexamples and witnesses -/

/-- An `active` session with two connected participants. -/
def gcC1 : GroupCall :=
  { id := 11, roomId := 1, callRoomId := "group-call-c1", initiator := 1,
    participants := [⟨1, PStatus.joined, some 10, none, false, false⟩,
                     ⟨2, PStatus.joined, some 20, none, false, false⟩],
    callType := CallType.video, status := CallStatus.active,
    activeParticipants := [1, 2], startedAt := 0, endedAt := none, duration := none,
    createdAt := 0 }

/-- A `ringing` session with only the initiator connected. -/
def gcW1 : GroupCall :=
  { id := 12, roomId := 1, callRoomId := "group-call-w1", initiator := 1,
    participants := [⟨1, PStatus.joined, some 0, none, false, false⟩,
                     ⟨2, PStatus.invited, none, none, false, false⟩],
    callType := CallType.video, status := CallStatus.ringing,
    activeParticipants := [1], startedAt := 0, endedAt := none, duration := none,
    createdAt := 0 }

/-- Session `gcW1` after user 2 joins at time 50. -/
def gcW1after : GroupCall :=
  { gcW1 with
    participants := [⟨1, PStatus.joined, some 0, none, false, false⟩,
                     ⟨2, PStatus.joined, some 50, none, false, false⟩],
    activeParticipants := [1, 2], status := CallStatus.active }

/-- A session that ended at time 5000 after a 5-second run. -/
def gcC2 : GroupCall :=
  { id := 7, roomId := 1, callRoomId := "group-call-c2", initiator := 1,
    participants := [⟨1, PStatus.left, some 100, some 5000, false, false⟩],
    callType := CallType.audio, status := CallStatus.ended,
    activeParticipants := [], startedAt := 0, endedAt := some 5000, duration := some 5,
    createdAt := 0 }

/-- A `ringing` session whose only participant has declined. -/
def gcC3 : GroupCall :=
  { id := 13, roomId := 1, callRoomId := "group-call-c3", initiator := 1,
    participants := [⟨1, PStatus.declined, none, none, false, false⟩],
    callType := CallType.audio, status := CallStatus.ringing,
    activeParticipants := [], startedAt := 0, endedAt := none, duration := none,
    createdAt := 0 }

/-! ## C1 -/

/-- Claim C1 as frozen is false on the code: a `leave` that reduces an
`active` session to exactly one active participant keeps `status =
'active'`, so afterwards `status = 'active' ↔ activeParticipants ≥ 2`
fails.  Concretely, user 1 leaving `gcC1`. -/
theorem c1_counterexample :
    ¬(((leaveCore 1000 1 gcC1).1.status = CallStatus.active) ↔
      2 ≤ (leaveCore 1000 1 gcC1).1.activeParticipants.length) := by
  decide

/-- Claim C1 (amended): after a completed `join` on a session that was
`ringing`, `status = 'active'` iff at least 2 participants are active,
and after any completed `join` a `ringing` session has at most 1 active
participant.  A completed `leave` changes the status only to `'ended'`,
and only when `activeParticipants` becomes empty; in particular it never
demotes an `active` session back to `ringing`, so the `iff` can fail
after a `leave`. -/
theorem c1_join_promotion_leave_no_demotion (now : Int) (uid : Nat) (g g' : GroupCall) :
    (join now uid (some g) = Resp.success g' → g.status = CallStatus.ringing →
      (g'.status = CallStatus.active ↔ 2 ≤ g'.activeParticipants.length)) ∧
    (join now uid (some g) = Resp.success g' → g'.status = CallStatus.ringing →
      g'.activeParticipants.length ≤ 1) ∧
    ((leaveCore now uid g).1.status =
      if (removeParticipant now uid g).activeParticipants.length = 0 then CallStatus.ended
      else g.status) := by
  refine ⟨?_, ?_, ?_⟩
  · intro hj hr
    rw [join] at hj
    split at hj
    · cases hj
      by_cases h2 : 2 ≤ (if uid ∈ g.activeParticipants then g.activeParticipants
                         else g.activeParticipants ++ [uid]).length
      · simp [hr, h2, ge_iff_le]
      · simp [hr, h2, ge_iff_le]
    · cases hj
  · intro hj hrs
    rw [join] at hj
    split at hj
    · cases hj
      by_cases hc : g.status = CallStatus.ringing ∧
          (if uid ∈ g.activeParticipants then g.activeParticipants
           else g.activeParticipants ++ [uid]).length ≥ 2
      · simp only [if_pos hc] at hrs
        cases hrs
      · simp only [if_neg hc] at hrs
        simp only []
        by_contra hgt
        exact hc ⟨hrs, by omega⟩
    · cases hj
  · by_cases h0 : (removeParticipant now uid g).activeParticipants.length = 0
    · rw [if_pos h0]
      show (if (removeParticipant now uid g).activeParticipants.length = 0 then
              endTransition now (removeParticipant now uid g)
            else removeParticipant now uid g).status = CallStatus.ended
      rw [if_pos h0]
      rfl
    · rw [if_neg h0]
      show (if (removeParticipant now uid g).activeParticipants.length = 0 then
              endTransition now (removeParticipant now uid g)
            else removeParticipant now uid g).status = g.status
      rw [if_neg h0]
      rfl

/-- Witness for the amended C1: user 2 joining the ringing session
`gcW1` promotes it to `active` with two active participants, and user 1
leaving the two-party `gcC1` keeps the status given by the stated
conditional. -/
theorem c1_join_promotion_leave_no_demotion_witness :
    ((gcW1after.status = CallStatus.active) ↔ 2 ≤ gcW1after.activeParticipants.length) ∧
    ((leaveCore 1000 1 gcC1).1.status =
      if (removeParticipant 1000 1 gcC1).activeParticipants.length = 0 then CallStatus.ended
      else gcC1.status) :=
  ⟨(c1_join_promotion_leave_no_demotion 50 2 gcW1 gcW1after).1 (by decide) (by decide),
   (c1_join_promotion_leave_no_demotion 1000 1 gcC1 gcW1after).2.2⟩

/-! ## C2 -/

/-- Claim C2 identifies a code bug: `leave` on a session that is already
`ended` (hence has no active participants) re-runs the end-of-call
branch, re-stamping `endedAt` with the current time and recomputing
`duration`, in contradiction with the terminal-state invariant; here a
session that ended at 5000 with duration 5 gets `endedAt = 9000`,
`duration = 9` from a later `leave`. -/
theorem c2_leave_restamps_ended_session :
    gcC2.status = CallStatus.ended ∧ gcC2.endedAt = some 5000 ∧ gcC2.duration = some 5 ∧
    (leaveCore 9000 1 gcC2).1.status = CallStatus.ended ∧
    (leaveCore 9000 1 gcC2).1.endedAt = some 9000 ∧
    (leaveCore 9000 1 gcC2).1.duration = some 9 ∧
    (leave 9000 1 (some gcC2)).1 = Resp.success true := by
  decide

/-! ## C3 -/

/-- Claim C3 as frozen is false on the code: `join` sets the matching
participant's status to `'joined'` regardless of its previous value, so
the `declined` participant of `gcC3` is set back to `joined`. -/
theorem c3_counterexample :
    gcC3.participants.map (fun p => p.status) = [PStatus.declined] ∧
    (respCall (join 100 1 (some gcC3))).map
        (fun g => g.participants.map (fun p => p.status)) = some [PStatus.joined] := by
  decide

/-- Claim C3 (amended): participant statuses are not monotone under the
user-initiated operations — `join`, `decline` and `leave` overwrite the
matching participant's status with `'joined'`, `'declined'`, `'left'`
respectively whatever it was before (every changed element of the result
arises this way, all others are untouched) — while the end-of-call
transition is monotone in the claimed sense: it maps `invited ↦ missed`
and leaves every other status unchanged, and no operation ever sets a
status back to `'invited'`. -/
theorem c3_participant_status_transitions (now : Int) (uid : Nat) (g g' : GroupCall) :
    (join now uid (some g) = Resp.success g' →
      ∀ q ∈ g'.participants, q ∈ g.participants ∨
        ∃ p, p ∈ g.participants ∧ p.userId = uid ∧
          q = { p with status := PStatus.joined, joinedAt := some now }) ∧
    (decline uid (some g) = Resp.success g' →
      ∀ q ∈ g'.participants, q ∈ g.participants ∨
        ∃ p, p ∈ g.participants ∧ p.userId = uid ∧
          q = { p with status := PStatus.declined }) ∧
    (∀ q ∈ (removeParticipant now uid g).participants, q ∈ g.participants ∨
      ∃ p, p ∈ g.participants ∧ p.userId = uid ∧
        q = { p with status := PStatus.left, leftAt := some now }) ∧
    ((endTransition now g).participants.map (fun p => p.status) =
      g.participants.map (fun p => if p.status = PStatus.invited then PStatus.missed
                                   else p.status)) := by
  refine ⟨?_, ?_, ?_, endTransition_statuses now g⟩
  · intro hj q hq
    rw [join] at hj
    split at hj
    · cases hj
      rcases updateFirst_mem hq with h1 | ⟨p, hp, hdp, hqp⟩
      · exact Or.inl h1
      · exact Or.inr ⟨p, hp, of_decide_eq_true hdp, hqp⟩
    · cases hj
  · intro hd q hq
    rw [decline] at hd
    split at hd
    · cases hd
      rcases updateFirst_mem hq with h1 | ⟨p, hp, hdp, hqp⟩
      · exact Or.inl h1
      · exact Or.inr ⟨p, hp, of_decide_eq_true hdp, hqp⟩
    · cases hd
  · intro q hq
    simp only [removeParticipant] at hq
    rcases List.mem_map.mp hq with ⟨p, hp, hfp⟩
    by_cases hu : p.userId = uid
    · rw [if_pos hu] at hfp
      exact Or.inr ⟨p, hp, hu, hfp.symm⟩
    · rw [if_neg hu] at hfp
      exact Or.inl (hfp ▸ hp)

/-- Witness for the amended C3: user 1 joining `gcC3` yields exactly the
overwritten `declined → joined` participant. -/
theorem c3_participant_status_transitions_witness :
    ⟨1, PStatus.joined, some 100, none, false, false⟩ ∈ gcC3.participants ∨
    ∃ p, p ∈ gcC3.participants ∧ p.userId = 1 ∧
      (⟨1, PStatus.joined, some 100, none, false, false⟩ : Participant) =
        { p with status := PStatus.joined, joinedAt := some 100 } :=
  (c3_participant_status_transitions 100 1 gcC3
      { gcC3 with participants := [⟨1, PStatus.joined, some 100, none, false, false⟩],
                  activeParticipants := [1] }).1
    (by decide)
    ⟨1, PStatus.joined, some 100, none, false, false⟩ (by decide)

/-! ## C4 and C8: initiate and the force-end transition -/

/-- The abandoned branch of `initiate`, as one equation. -/
theorem initiate_abandoned_eq (now : Int) (uid roomId : Nat) (ct : CallType)
    (rooms : List Room) (room : Room) (uuid : String) (newId : Nat)
    (db : List GroupCall) (ts : Timers) (existing : GroupCall)
    (hroom : rooms.find? (fun r => decide (r.id = roomId)) = some room)
    (hmem : uid ∈ room.participants)
    (hfind : findActiveForRoom roomId db = some existing)
    (hab : isAbandoned now existing = true) :
    initiate now uid (some roomId) ct rooms uuid newId db ts =
      (InitResp.created (mkGroupCall now uid roomId ct uuid newId room),
       replaceCall (endTransition now existing) db ++
         [mkGroupCall now uid roomId ct uuid newId room],
       clearEntry existing.id ts) := by
  simp only [initiate, hroom, hfind, if_pos hmem, hab, endCall, if_true]

/-- The non-abandoned branch of `initiate`, as one equation. -/
theorem initiate_live_eq (now : Int) (uid roomId : Nat) (ct : CallType)
    (rooms : List Room) (room : Room) (uuid : String) (newId : Nat)
    (db : List GroupCall) (ts : Timers) (existing : GroupCall)
    (hroom : rooms.find? (fun r => decide (r.id = roomId)) = some room)
    (hmem : uid ∈ room.participants)
    (hfind : findActiveForRoom roomId db = some existing)
    (hab : isAbandoned now existing = false) :
    initiate now uid (some roomId) ct rooms uuid newId db ts =
      (InitResp.existingCall existing, db, ts) := by
  simp only [initiate, hroom, hfind, if_pos hmem, hab]
  simp

/-- The room and the abandoned call used by the C4/C8 witnesses. -/
def room1 : Room := { id := 1, name := "room-one", participants := [1, 2] }

/-- A ringing call for room 1 with no active participants (abandoned). -/
def gcAband : GroupCall :=
  { id := 9, roomId := 1, callRoomId := "group-call-old", initiator := 1,
    participants := [⟨1, PStatus.joined, some 0, none, false, false⟩,
                     ⟨2, PStatus.invited, none, none, false, false⟩],
    callType := CallType.video, status := CallStatus.ringing,
    activeParticipants := [], startedAt := 0, endedAt := none, duration := none,
    createdAt := 0 }

/-- Claim C4: when `initiate` finds a live (`ringing`/`active`) session
for the room it classifies it as abandoned exactly when
`activeParticipants` is empty or it has been `ringing` for more than 5
minutes; if abandoned it force-ends the old session and creates a fresh
one whose `sessionChannel` is `"group-call-" ++ uuid` for the newly
generated uuid; if not abandoned it returns the same existing session
with the store unchanged (no new session). -/
theorem c4_initiate_abandonment (now : Int) (uid roomId : Nat) (ct : CallType)
    (rooms : List Room) (room : Room) (uuid : String) (newId : Nat)
    (db : List GroupCall) (ts : Timers) (existing : GroupCall)
    (hroom : rooms.find? (fun r => decide (r.id = roomId)) = some room)
    (hmem : uid ∈ room.participants)
    (hfind : findActiveForRoom roomId db = some existing) :
    (isAbandoned now existing = true ↔
      (existing.activeParticipants.length = 0 ∨
       (existing.status = CallStatus.ringing ∧ now - existing.startedAt > 5 * 60 * 1000))) ∧
    (isAbandoned now existing = true →
      initiate now uid (some roomId) ct rooms uuid newId db ts =
        (InitResp.created (mkGroupCall now uid roomId ct uuid newId room),
         replaceCall (endTransition now existing) db ++
           [mkGroupCall now uid roomId ct uuid newId room],
         clearEntry existing.id ts)) ∧
    (isAbandoned now existing = false →
      initiate now uid (some roomId) ct rooms uuid newId db ts =
        (InitResp.existingCall existing, db, ts)) ∧
    (mkGroupCall now uid roomId ct uuid newId room).callRoomId = "group-call-" ++ uuid := by
  refine ⟨?_, ?_, ?_, rfl⟩
  · simp [isAbandoned, Bool.or_eq_true, Bool.and_eq_true, decide_eq_true_iff]
  · intro hab
    exact initiate_abandoned_eq now uid roomId ct rooms room uuid newId db ts existing
      hroom hmem hfind hab
  · intro hab
    exact initiate_live_eq now uid roomId ct rooms room uuid newId db ts existing
      hroom hmem hfind hab

/-- Witness for C4: user 1 initiating a video call on room 1 while the
abandoned `gcAband` (no active participants) is live ends it and creates
a fresh call with the new channel. -/
theorem c4_initiate_abandonment_witness :
    initiate 1000 1 (some 1) CallType.video [room1] "w4" 20 [gcAband] [(9, 777)] =
      (InitResp.created (mkGroupCall 1000 1 1 CallType.video "w4" 20 room1),
       replaceCall (endTransition 1000 gcAband) [gcAband] ++
         [mkGroupCall 1000 1 1 CallType.video "w4" 20 room1],
       clearEntry 9 [(9, 777)]) :=
  (c4_initiate_abandonment 1000 1 1 CallType.video [room1] room1 "w4" 20 [gcAband]
      [(9, 777)] gcAband (by decide) (by decide) (by decide)).2.1 (by decide)

/-- Claim C8: the force-end applied by `initiate` to an abandoned
session sets `status = ended`, `endedAt = now`, computes the duration,
finalizes participant statuses as in `leave` step 3 (`invited ↦ missed`,
`joined` without `leftAt` gets `leftAt = endedAt`), persists the result
in the store, and cancels any outstanding abandonment timer for that
session.  The `endCall` model method itself is modelled from spec §4.3
since `lib/models/GroupCall.js` is not among the sources. -/
theorem c8_force_end (now : Int) (uid roomId : Nat) (ct : CallType)
    (rooms : List Room) (room : Room) (uuid : String) (newId : Nat)
    (db : List GroupCall) (ts : Timers) (existing : GroupCall)
    (hroom : rooms.find? (fun r => decide (r.id = roomId)) = some room)
    (hmem : uid ∈ room.participants)
    (hfind : findActiveForRoom roomId db = some existing)
    (hab : isAbandoned now existing = true) :
    (initiate now uid (some roomId) ct rooms uuid newId db ts).2.1 =
      replaceCall (endCall now existing ts).1 db ++
        [mkGroupCall now uid roomId ct uuid newId room] ∧
    (endCall now existing ts).1.status = CallStatus.ended ∧
    (endCall now existing ts).1.endedAt = some now ∧
    (endCall now existing ts).1.duration = some (Int.fdiv (now - existing.startedAt) 1000) ∧
    (endCall now existing ts).1.participants.map (fun p => p.status) =
      existing.participants.map (fun p => if p.status = PStatus.invited then PStatus.missed
                                          else p.status) ∧
    (endCall now existing ts).1.participants.map (fun p => p.leftAt) =
      existing.participants.map (fun p => if p.status = PStatus.joined ∧ p.leftAt = none
                                          then some now else p.leftAt) ∧
    lookupTimer existing.id (initiate now uid (some roomId) ct rooms uuid newId db ts).2.2 =
      none := by
  have he := initiate_abandoned_eq now uid roomId ct rooms room uuid newId db ts existing
    hroom hmem hfind hab
  refine ⟨?_, rfl, rfl, rfl, ?_, ?_, ?_⟩
  · rw [he]
    rfl
  · exact endTransition_statuses now existing
  · exact endTransition_leftAts now existing
  · rw [he]
    exact lookupTimer_clearEntry_self existing.id ts

/-- Witness for C8: the same concrete initiate call as C4's witness,
checked for the force-end effects on `gcAband` and the timer entry. -/
theorem c8_force_end_witness :
    (endCall 1000 gcAband [(9, 777)]).1.status = CallStatus.ended ∧
    (endCall 1000 gcAband [(9, 777)]).1.endedAt = some 1000 ∧
    lookupTimer 9
      (initiate 1000 1 (some 1) CallType.video [room1] "w8" 21 [gcAband] [(9, 777)]).2.2 =
      none := by
  have h := c8_force_end 1000 1 1 CallType.video [room1] room1 "w8" 21 [gcAband]
    [(9, 777)] gcAband (by decide) (by decide) (by decide) (by decide)
  exact ⟨h.2.1, h.2.2.1, h.2.2.2.2.2.2⟩

/-! ## C5 and C10: leave -/

/-- Unfolding of `leaveCore` with its lets expanded. -/
theorem leaveCore_eq (now : Int) (uid : Nat) (g : GroupCall) :
    leaveCore now uid g =
      (if (removeParticipant now uid g).activeParticipants.length = 0
       then endTransition now (removeParticipant now uid g)
       else removeParticipant now uid g,
       decide ((if (removeParticipant now uid g).activeParticipants.length = 0
                then endTransition now (removeParticipant now uid g)
                else removeParticipant now uid g).status = CallStatus.ended)) := rfl

/-- When the caller matches no participant and is not in
`activeParticipants`, the atomic update of `leave` is a no-op. -/
theorem removeParticipant_noop (now : Int) (uid : Nat) (g : GroupCall)
    (h1 : ∀ p ∈ g.participants, p.userId ≠ uid)
    (h2 : uid ∉ g.activeParticipants) :
    removeParticipant now uid g = g := by
  have hp : g.participants.map (fun p =>
      if p.userId = uid then { p with status := PStatus.left, leftAt := some now } else p) =
      g.participants := by
    have := List.map_congr_left (l := g.participants)
      (f := fun p => if p.userId = uid then
        { p with status := PStatus.left, leftAt := some now } else p)
      (g := fun p => p)
      (fun p hp => if_neg (h1 p hp))
    rw [this]
    simp
  have ha : g.activeParticipants.filter (fun x => decide (x ≠ uid)) =
      g.activeParticipants := by
    refine List.filter_eq_self.mpr (fun x hx => ?_)
    exact decide_eq_true (fun hxe => h2 (hxe ▸ hx))
  unfold removeParticipant
  rw [hp, ha]

/-- Claim C5: when the atomic removal of `leave` empties
`activeParticipants`, the session transitions to `ended` with
`endedAt = now`, `duration = ⌊(endedAt − startedAt)/1000⌋`, every still
`invited` participant becomes `missed`, every `joined` participant
without a `leftAt` receives `leftAt = endedAt`, and the 200 response
reports through `callEnded` whether the call ended as a result of this
leave. -/
theorem c5_leave_end_of_call (now : Int) (uid : Nat) (g : GroupCall)
    (h : g.status ≠ CallStatus.ended) :
    ((leaveCore now uid g).2 = true ↔
      (removeParticipant now uid g).activeParticipants = []) ∧
    ((removeParticipant now uid g).activeParticipants = [] →
      (leaveCore now uid g).1.status = CallStatus.ended ∧
      (leaveCore now uid g).1.endedAt = some now ∧
      (leaveCore now uid g).1.duration = some (Int.fdiv (now - g.startedAt) 1000) ∧
      (leaveCore now uid g).1.participants.map (fun p => p.status) =
        (removeParticipant now uid g).participants.map
          (fun p => if p.status = PStatus.invited then PStatus.missed else p.status) ∧
      (leaveCore now uid g).1.participants.map (fun p => p.leftAt) =
        (removeParticipant now uid g).participants.map
          (fun p => if p.status = PStatus.joined ∧ p.leftAt = none then some now
                    else p.leftAt)) ∧
    (leave now uid (some g)).1 = Resp.success (leaveCore now uid g).2 := by
  refine ⟨?_, ?_, rfl⟩
  · by_cases h0 : (removeParticipant now uid g).activeParticipants = []
    · have hlen : (removeParticipant now uid g).activeParticipants.length = 0 := by
        rw [h0]; rfl
      refine ⟨fun _ => h0, fun _ => ?_⟩
      rw [leaveCore_eq]
      simp only [if_pos hlen]
      rfl
    · have hlen : ¬ (removeParticipant now uid g).activeParticipants.length = 0 := by
        intro hc; exact h0 (List.length_eq_zero.mp hc)
      refine ⟨fun hflag => ?_, fun h0' => absurd h0' h0⟩
      rw [leaveCore_eq] at hflag
      simp only [if_neg hlen] at hflag
      exact absurd (of_decide_eq_true hflag) h
  · intro h0
    have hlen : (removeParticipant now uid g).activeParticipants.length = 0 := by
      rw [h0]; rfl
    have hcore1 : (leaveCore now uid g).1 =
        endTransition now (removeParticipant now uid g) := by
      rw [leaveCore_eq]
      simp only [if_pos hlen]
    refine ⟨?_, ?_, ?_, ?_, ?_⟩
    · rw [hcore1]; rfl
    · rw [hcore1]; rfl
    · rw [hcore1]; rfl
    · rw [hcore1]; exact endTransition_statuses now (removeParticipant now uid g)
    · rw [hcore1]; exact endTransition_leftAts now (removeParticipant now uid g)

/-- An `active` session where user 1 is the last connected participant,
user 2 never answered and user 3 declined. -/
def gcW5 : GroupCall :=
  { id := 14, roomId := 1, callRoomId := "group-call-w5", initiator := 1,
    participants := [⟨1, PStatus.joined, some 10, none, false, false⟩,
                     ⟨2, PStatus.invited, none, none, false, false⟩,
                     ⟨3, PStatus.declined, none, none, false, false⟩],
    callType := CallType.video, status := CallStatus.active,
    activeParticipants := [1], startedAt := 0, endedAt := none, duration := none,
    createdAt := 0 }

/-- Witness for C5: the last participant leaving `gcW5` at time 4500
ends it with duration ⌊4500/1000⌋ and `callEnded = true`. -/
theorem c5_leave_end_of_call_witness :
    (leaveCore 4500 1 gcW5).2 = true ∧
    (leaveCore 4500 1 gcW5).1.status = CallStatus.ended ∧
    (leaveCore 4500 1 gcW5).1.endedAt = some 4500 ∧
    (leaveCore 4500 1 gcW5).1.duration = some (Int.fdiv (4500 - gcW5.startedAt) 1000) ∧
    (leave 4500 1 (some gcW5)).1 = Resp.success (leaveCore 4500 1 gcW5).2 := by
  have h := c5_leave_end_of_call 4500 1 gcW5 (by decide)
  have h0 : (removeParticipant 4500 1 gcW5).activeParticipants = [] := by decide
  exact ⟨h.1.mpr h0, (h.2.1 h0).1, (h.2.1 h0).2.1, (h.2.1 h0).2.2.1, h.2.2⟩

/-- A ringing session with one invited participant and nobody active:
the state left behind by the seed script, reachable as stored data. -/
def gcC10 : GroupCall :=
  { id := 41, roomId := 1, callRoomId := "group-call-c10", initiator := 2,
    participants := [⟨2, PStatus.invited, none, none, false, false⟩],
    callType := CallType.audio, status := CallStatus.ringing,
    activeParticipants := [], startedAt := 0, endedAt := none, duration := none,
    createdAt := 0 }

/-- Claim C10 as frozen is false on the code: a `leave` by
non-participant 1 on `gcC10` returns success, but because
`activeParticipants` is empty after the no-op removal the end-of-call
branch runs and mutates the participants array (`invited ↦ missed`). -/
theorem c10_counterexample :
    gcC10.participants.map (fun p => p.userId) = [2] ∧
    gcC10.activeParticipants = [] ∧
    (leave 100 1 (some gcC10)).1 = Resp.success true ∧
    ((leave 100 1 (some gcC10)).2.map
      (fun x => x.participants.map (fun p => p.status))) = some [PStatus.missed] ∧
    gcC10.participants.map (fun p => p.status) = [PStatus.invited] := by
  decide

/-- Claim C10 (amended): `leave` performs no membership check and can
never answer Forbidden; for a `userId` matching no participant and
absent from `activeParticipants` it returns success, and it leaves the
whole session unchanged when `activeParticipants` is nonempty — but when
`activeParticipants` is empty the end-of-call branch still runs, so the
stored session becomes the force-ended one (participants included). -/
theorem c10_leave_no_membership_check (now : Int) (uid : Nat) (g : GroupCall) :
    (∀ found : Option GroupCall, (leave now uid found).1 ≠ Resp.forbidden) ∧
    ((∀ p ∈ g.participants, p.userId ≠ uid) → uid ∉ g.activeParticipants →
      g.activeParticipants ≠ [] →
      leave now uid (some g) =
        (Resp.success (decide (g.status = CallStatus.ended)), some g)) ∧
    ((∀ p ∈ g.participants, p.userId ≠ uid) → uid ∉ g.activeParticipants →
      g.activeParticipants = [] →
      (leave now uid (some g)).2 = some (endTransition now g)) := by
  refine ⟨?_, ?_, ?_⟩
  · intro found
    cases found with
    | none => simp [leave]
    | some g' => simp [leave]
  · intro h1 h2 h3
    have hrp := removeParticipant_noop now uid g h1 h2
    have hlen : ¬ g.activeParticipants.length = 0 := by
      intro hc
      exact h3 (List.length_eq_zero.mp hc)
    have hcore : leaveCore now uid g = (g, decide (g.status = CallStatus.ended)) := by
      rw [leaveCore_eq, hrp]
      rw [if_neg hlen]
    show (Resp.success (leaveCore now uid g).2, some (leaveCore now uid g).1) = _
    rw [hcore]
  · intro h1 h2 h3
    have hrp := removeParticipant_noop now uid g h1 h2
    have hlen : g.activeParticipants.length = 0 := by
      rw [h3]; rfl
    have hcore1 : (leaveCore now uid g).1 = endTransition now g := by
      have : leaveCore now uid g =
          (endTransition now g, decide ((endTransition now g).status = CallStatus.ended)) := by
        rw [leaveCore_eq, hrp]
        rw [if_pos hlen]
      rw [this]
    show some (leaveCore now uid g).1 = _
    rw [hcore1]

/-- An `active` two-party call used by the C10 witness. -/
def gcW10 : GroupCall :=
  { id := 42, roomId := 1, callRoomId := "group-call-w10", initiator := 2,
    participants := [⟨2, PStatus.joined, some 5, none, false, false⟩,
                     ⟨3, PStatus.joined, some 6, none, false, false⟩],
    callType := CallType.video, status := CallStatus.active,
    activeParticipants := [2, 3], startedAt := 0, endedAt := none, duration := none,
    createdAt := 0 }

/-- Witness for the amended C10: non-participant 9 leaving the live
`gcW10` gets a success response and the session is untouched. -/
theorem c10_leave_no_membership_check_witness :
    leave 100 9 (some gcW10) =
      (Resp.success (decide (gcW10.status = CallStatus.ended)), some gcW10) :=
  (c10_leave_no_membership_check 100 9 gcW10).2.1 (by decide) (by decide) (by decide)

/-! ## C6: the abandonment-timer lifecycle -/

/-- Claim C6: after a `leave` leaving exactly one active participant a
30-second timer is armed for the session, replacing any pending entry;
with any other count the pending entry is cancelled (this covers both
"more than one remains" and "the session just ended", where the count is
0); timer bookkeeping never touches other sessions' entries; a `join`
cancels the pending timer; and the fired timer ends the re-fetched
session only when it still has at most one active participant and is not
already ended, emitting `group_call_ended` (the spec's `call_ended`)
with reason `no_participants`, removing its registry entry in every
case — also when the session vanished or the re-check fails. -/
theorem c6_timer_lifecycle (now : Int) (g : GroupCall) (ts : Timers) (callId : Nat)
    (fresh : GroupCall) :
    (g.activeParticipants.length = 1 →
      leaveTimers now g ts = (g.id, now + 30 * 1000) :: clearEntry g.id ts) ∧
    (g.activeParticipants.length = 1 →
      lookupTimer g.id (leaveTimers now g ts) = some (now + 30 * 1000)) ∧
    (g.activeParticipants.length ≠ 1 →
      lookupTimer g.id (leaveTimers now g ts) = none) ∧
    (∀ other : Nat, other ≠ g.id →
      lookupTimer other (leaveTimers now g ts) = lookupTimer other ts) ∧
    lookupTimer g.id (joinTimers g ts) = none ∧
    lookupTimer callId (timerFire now callId (some fresh) ts).2.2 = none ∧
    lookupTimer callId (timerFire now callId none ts).2.2 = none ∧
    (fresh.activeParticipants.length ≤ 1 → fresh.status ≠ CallStatus.ended →
      (timerFire now callId (some fresh) ts).1 = some (endTransition now fresh) ∧
      (timerFire now callId (some fresh) ts).2.1 =
        [EmittedEvent.group_call_ended fresh.id "no_participants"]) ∧
    (¬(fresh.activeParticipants.length ≤ 1 ∧ fresh.status ≠ CallStatus.ended) →
      (timerFire now callId (some fresh) ts).1 = some fresh ∧
      (timerFire now callId (some fresh) ts).2.1 = []) := by
  refine ⟨?_, ?_, ?_, ?_, ?_, ?_, ?_, ?_, ?_⟩
  · intro h1
    rw [leaveTimers, if_pos h1]
  · intro h1
    rw [leaveTimers, if_pos h1]
    exact lookupTimer_cons_self g.id (now + 30 * 1000) (clearEntry g.id ts)
  · intro h1
    rw [leaveTimers, if_neg h1]
    exact lookupTimer_clearEntry_self g.id ts
  · intro other ho
    rw [leaveTimers]
    by_cases h1 : g.activeParticipants.length = 1
    · rw [if_pos h1, lookupTimer_cons, if_neg (fun hc => ho hc.symm)]
      exact lookupTimer_clearEntry_other ho ts
    · rw [if_neg h1]
      exact lookupTimer_clearEntry_other ho ts
  · rw [joinTimers]
    exact lookupTimer_clearEntry_self g.id ts
  · by_cases hc : fresh.activeParticipants.length ≤ 1 ∧ fresh.status ≠ CallStatus.ended
    · simp only [timerFire, if_pos hc]
      exact lookupTimer_clearEntry_self callId ts
    · simp only [timerFire, if_neg hc]
      exact lookupTimer_clearEntry_self callId ts
  · simp only [timerFire]
    exact lookupTimer_clearEntry_self callId ts
  · intro h1 h2
    simp only [timerFire, if_pos (And.intro h1 h2)]
    exact ⟨trivial, trivial⟩
  · intro hc
    simp only [timerFire, if_neg hc]
    exact ⟨trivial, trivial⟩

/-- A session with exactly one active participant, used by the C6
witness. -/
def gcT1 : GroupCall :=
  { id := 31, roomId := 3, callRoomId := "group-call-t1", initiator := 4,
    participants := [⟨4, PStatus.joined, some 1, none, false, false⟩,
                     ⟨5, PStatus.left, some 2, some 3, false, false⟩],
    callType := CallType.audio, status := CallStatus.active,
    activeParticipants := [4], startedAt := 0, endedAt := none, duration := none,
    createdAt := 0 }

/-- Session `gcT1` with a second connected participant. -/
def gcT2 : GroupCall :=
  { gcT1 with activeParticipants := [4, 5] }

/-- Witness for C6 at concrete registries: arming on one active
participant (replacing the stale entry for call 31), cancelling on two,
cancelling on join, and the fired timer ending `gcT1`. -/
theorem c6_timer_lifecycle_witness :
    lookupTimer 31 (leaveTimers 100 gcT1 [(31, 5), (32, 6)]) = some (100 + 30 * 1000) ∧
    lookupTimer 31 (leaveTimers 100 gcT2 [(31, 5)]) = none ∧
    lookupTimer 32 (leaveTimers 100 gcT1 [(31, 5), (32, 6)]) = lookupTimer 32 [(31, 5), (32, 6)] ∧
    lookupTimer 31 (joinTimers gcT1 [(31, 5)]) = none ∧
    (timerFire 200 31 (some gcT1) [(31, 5)]).1 = some (endTransition 200 gcT1) ∧
    (timerFire 200 31 (some gcT1) [(31, 5)]).2.1 =
      [EmittedEvent.group_call_ended gcT1.id "no_participants"] ∧
    lookupTimer 31 (timerFire 200 31 (some gcT1) [(31, 5)]).2.2 = none := by
  have ha := c6_timer_lifecycle 100 gcT1 [(31, 5), (32, 6)] 31 gcT1
  have hb := c6_timer_lifecycle 100 gcT2 [(31, 5)] 31 gcT2
  have hc := c6_timer_lifecycle 200 gcT1 [(31, 5)] 31 gcT1
  exact ⟨ha.2.1 (by decide), hb.2.2.1 (by decide), ha.2.2.2.1 32 (by decide),
    hc.2.2.2.2.1, (hc.2.2.2.2.2.2.2.1 (by decide) (by decide)).1,
    (hc.2.2.2.2.2.2.2.1 (by decide) (by decide)).2, hc.2.2.2.2.2.1⟩

/-! ## C7: the retry loop of leave -/

/-- Claim C7: the atomic participant-removal write of `leave` is
attempted at most `maxRetries = 3` times; backoff sleeps grow as
`100ms × attempt` number (100 then 200); the failure becomes fatal
(rethrown, surfacing as a 500) exactly when all three attempts hit a
conflict, and a conflict resolved on a later attempt never surfaces. -/
theorem c7_retry_loop (outcome : Nat → Attempt) :
    ((leaveRetry outcome).success = false ↔
      (outcome 0 = Attempt.conflict ∧ outcome 1 = Attempt.conflict ∧
       outcome 2 = Attempt.conflict)) ∧
    (leaveRetry outcome).attemptsMade ≤ maxRetries ∧
    (outcome 0 = Attempt.ok →
      (leaveRetry outcome).success = true ∧ (leaveRetry outcome).sleeps = []) ∧
    (outcome 0 = Attempt.conflict → outcome 1 = Attempt.ok →
      (leaveRetry outcome).success = true ∧ (leaveRetry outcome).sleeps = [100 * 1]) ∧
    (outcome 0 = Attempt.conflict → outcome 1 = Attempt.conflict →
      (leaveRetry outcome).sleeps = [100 * 1, 100 * 2]) := by
  cases h0 : outcome 0 <;> cases h1 : outcome 1 <;> cases h2 : outcome 2 <;>
    simp [leaveRetry, retryGo, maxRetries, h0, h1, h2]

/-- Witness for C7: all-conflict outcomes exhaust the three attempts and
fail after sleeping 100 and 200 ms; a conflict resolved on the second
attempt succeeds after a single 100 ms sleep. -/
theorem c7_retry_loop_witness :
    (leaveRetry (fun _ => Attempt.conflict)).success = false ∧
    (leaveRetry (fun i => if i = 0 then Attempt.conflict else Attempt.ok)).success = true ∧
    (leaveRetry (fun i => if i = 0 then Attempt.conflict else Attempt.ok)).sleeps = [100 * 1] ∧
    (leaveRetry (fun _ => Attempt.conflict)).sleeps = [100 * 1, 100 * 2] := by
  have ha := c7_retry_loop (fun _ => Attempt.conflict)
  have hb := c7_retry_loop (fun i => if i = 0 then Attempt.conflict else Attempt.ok)
  exact ⟨ha.1.mpr ⟨rfl, rfl, rfl⟩, (hb.2.2.2.1 rfl rfl).1, (hb.2.2.2.1 rfl rfl).2,
    ha.2.2.2.2 rfl rfl⟩

/-! ## C9: getPending -/

/-- A ringing session in which user 1 has already `joined` while user 2
is still `invited`: the dotted-path Mongo filter matches it for user 1
even though user 1's own status is not `invited`. -/
def gcC9 : GroupCall :=
  { id := 51, roomId := 1, callRoomId := "group-call-c9", initiator := 1,
    participants := [⟨1, PStatus.joined, some 5, none, false, false⟩,
                     ⟨2, PStatus.invited, none, none, false, false⟩],
    callType := CallType.audio, status := CallStatus.ringing,
    activeParticipants := [1], startedAt := 0, endedAt := none, duration := none,
    createdAt := 0 }

/-- Claim C9 as frozen is false on the code: `getPending 1` returns
`gcC9` although the participant entry of user 1 has status `joined`, not
`invited` — the two dotted-path conditions of the Mongo filter are
witnessed by different participants. -/
theorem c9_counterexample :
    getPending 1 [gcC9] = [gcC9] ∧
    gcC9.participants.map (fun p => (p.userId, p.status)) =
      [(1, PStatus.joined), (2, PStatus.invited)] := by
  constructor
  · have hf : [gcC9].filter (getPendingFilter 1) = [gcC9] := by decide
    rw [getPending, hf, List.mergeSort_singleton]
  · decide

/-- Claim C9 (amended): `getPending(userId)` returns exactly the
sessions with status `ringing` in which `userId` appears among the
participants AND some participant (not necessarily `userId`) still has
status `invited`, ordered newest first by creation time; as a pure
function of the store it performs no writes. -/
theorem c9_getPending_characterization (uid : Nat) (db : List GroupCall) :
    (∀ g : GroupCall, g ∈ getPending uid db ↔
      (g ∈ db ∧ g.status = CallStatus.ringing ∧
       (∃ p ∈ g.participants, p.userId = uid) ∧
       (∃ p ∈ g.participants, p.status = PStatus.invited))) ∧
    (getPending uid db).Pairwise (fun a b => b.createdAt ≤ a.createdAt) ∧
    (getPending uid db).Perm (db.filter (getPendingFilter uid)) := by
  refine ⟨?_, ?_, ?_⟩
  · intro g
    rw [getPending, List.mem_mergeSort, List.mem_filter]
    simp only [getPendingFilter, Bool.and_eq_true, List.any_eq_true, decide_eq_true_eq]
    tauto
  · have hs := @List.sorted_mergeSort GroupCall
      (fun a b : GroupCall => decide (b.createdAt ≤ a.createdAt))
      (fun a b c hab hbc => by
        simp only [decide_eq_true_eq] at *
        exact le_trans hbc hab)
      (fun a b => by
        by_cases hab : b.createdAt ≤ a.createdAt
        · simp [hab]
        · simp [hab, le_of_not_le hab])
      (db.filter (getPendingFilter uid))
    rw [getPending]
    exact hs.imp (fun h => of_decide_eq_true h)
  · rw [getPending]
    exact List.mergeSort_perm _ _

end GroupCallModel
